import Mathlib

/-
Verification of the indoor-positioning core of this repository.

The embedded code:
  * src/algorithms/fingerprint.py — equirectangular coordinate transform
    (set_origin, ll_to_local) around a mutable origin;
  * src/algorithms/filters.py — KalmanFilter over state [x, y, floor];
  * src/algorithms/fusion.py — fuse / set_origin_gps over the module-level
    singleton filter and origin;
  * src/algorithms/PDR.py and src/legacy_tools/Kalmanfilter.py — the stance-mask
    marking, Weinberg stride estimation and rotation-matrix propagation stages
    of the PDR pipeline (the two files hold diverging versions of each stage);
  * the PositionIntegrator pdr_delta operation, whose definition is not part of
    the sources (only imports and callers are) and is modelled from the spec.

Python floats are embedded as real numbers; numpy arrays as lists or functions;
numpy operations that raise (broadcasting a 10-element array into a shorter
slice, writing past the end of an array) return Option.none.
-/

open Matrix

noncomputable section

/-- Earth radius in meters (R = 6371000), as in src/algorithms/fingerprint.py line 115. -/
def earthRadius : ℝ := 6371000

/-- Python math.radians: degrees to radians. -/
def radians (deg : ℝ) : ℝ := deg * Real.pi / 180

/-- The module-level origin globals (ORIGIN_LON, ORIGIN_LAT) of src/algorithms/fingerprint.py. -/
structure Origin where
  lon : ℝ
  lat : ℝ

/-- set_origin from src/algorithms/fingerprint.py lines 93-102: overwrite the origin globals. -/
def set_origin (lon0 lat0 : ℝ) : Origin := ⟨lon0, lat0⟩

/-- ll_to_local from src/algorithms/fingerprint.py lines 104-118:
x = (lon - ORIGIN_LON) * cos(radians(ORIGIN_LAT)) * R, y = (lat - ORIGIN_LAT) * R. -/
def ll_to_local (o : Origin) (lon lat : ℝ) : ℝ × ℝ :=
  ((lon - o.lon) * Real.cos (radians o.lat) * earthRadius,
   (lat - o.lat) * earthRadius)

/-- Modelled from the spec: local_to_ll is imported by src/algorithms/fusion.py line 6
from algorithms.fingerprint, but no definition of it exists under src. Spec section 4.1:
to_geo(x, y) is the exact inverse of to_local under the equirectangular approximation,
"the inverse dividing out the same factors" cos(lat0)·R and R. -/
def local_to_ll (o : Origin) (x y : ℝ) : ℝ × ℝ :=
  (x / (Real.cos (radians o.lat) * earthRadius) + o.lon,
   y / earthRadius + o.lat)

/-- KalmanFilter of src/algorithms/filters.py: state vector x = [x, y, floor], covariance P,
process noise Q, measurement noise R, measurement matrix H (fields set in __init__). -/
structure KalmanFilter where
  x : Fin 3 → ℝ
  P : Matrix (Fin 3) (Fin 3) ℝ
  Q : Matrix (Fin 3) (Fin 3) ℝ
  R : Matrix (Fin 3) (Fin 3) ℝ
  H : Matrix (Fin 3) (Fin 3) ℝ

/-- KalmanFilter.__init__ (filters.py lines 12-24): x = 0, P = I, Q defaults to 0.1·I,
R defaults to 2·I, H = I. -/
def KalmanFilter.init (Qopt Ropt : Option (Matrix (Fin 3) (Fin 3) ℝ)) : KalmanFilter :=
  { x := fun _ => 0
    P := 1
    Q := Qopt.getD ((0.1 : ℝ) • 1)
    R := Ropt.getD ((2 : ℝ) • 1)
    H := 1 }

/-- KalmanFilter.reset_state (filters.py lines 26-32): hard overwrite of the state,
covariance back to the identity. -/
def KalmanFilter.reset_state (kf : KalmanFilter) (position : Fin 3 → ℝ) : KalmanFilter :=
  { kf with x := position, P := 1 }

/-- KalmanFilter.predict (filters.py lines 34-43): x = x + delta, P = P + Q. -/
def KalmanFilter.predict (kf : KalmanFilter) (pdrDelta : Fin 3 → ℝ) : KalmanFilter :=
  { kf with x := kf.x + pdrDelta, P := kf.P + kf.Q }

/-- KalmanFilter.update (filters.py lines 45-61): standard Kalman correction.
np.linalg.inv(S) is embedded as Matrix inverse (it agrees on invertible S, the only
case reachable below a non-singular R). -/
def KalmanFilter.update (kf : KalmanFilter) (z : Fin 3 → ℝ) : KalmanFilter :=
  let y := z - kf.H.mulVec kf.x
  let S := kf.H * kf.P * kf.Hᵀ + kf.R
  let K := kf.P * kf.Hᵀ * S⁻¹
  { kf with x := kf.x + K.mulVec y, P := (1 - K * kf.H) * kf.P }

/-- KalmanFilter.get_state (filters.py lines 63-67): the state as a 3-tuple. -/
def KalmanFilter.get_state (kf : KalmanFilter) : ℝ × ℝ × ℝ := (kf.x 0, kf.x 1, kf.x 2)

/-- The module state of src/algorithms/fusion.py together with the origin globals of
algorithms/fingerprint.py that its coordinate helpers read: the singleton _kf and the origin. -/
structure FusionState where
  origin : Origin
  kf : Option KalmanFilter

/-- set_origin_gps from src/algorithms/fusion.py lines 12-26: set the origin; when the
singleton filter already exists, reset its state to (0, 0, 0). -/
def set_origin_gps (gs : FusionState) (lon lat : ℝ) : FusionState :=
  { origin := set_origin lon lat
    kf := gs.kf.map (fun k => k.reset_state ![0, 0, 0]) }

/-- fuse from src/algorithms/fusion.py lines 52-98.
Inputs are embedded at the types the claims exercise: qrAnchor stands for the
(lon, lat, floor) float triple produced by normalize_position_to_3tuple/to_float_tuple
from a well-formed anchor; pdrDelta keeps the tuple as a list so that the
len(pdr_delta) >= 2 guard and CPython tuple truthiness (empty tuple falsy) are kept;
roomFloor stands for get_floor(room).  The fingerprint parameter of the Python
signature is never read in the body and is omitted.  The expressions
"_kf.get_state() or (0.0, 0.0, get_floor(room))" always take the left branch in
CPython, because get_state returns a 3-tuple, which is truthy; the embedded
fallback therefore reads the state directly and roomFloor is dead, as in the source. -/
def fuse (gs : FusionState) (pdrDelta : Option (List ℝ))
    (qrAnchor : Option (ℝ × ℝ × ℝ)) (_roomFloor : ℝ) : FusionState × (ℝ × ℝ × ℝ) :=
  -- if _kf is None: _kf = KalmanFilter()
  let kf0 := gs.kf.getD (KalmanFilter.init none none)
  let kf1 :=
    match qrAnchor with
    | some (plon, plat, pz) =>
        -- QR hard reset: x, y = ll_to_local(...); _kf.reset_state((x, y, z))
        let xy := ll_to_local gs.origin plon plat
        kf0.reset_state ![xy.1, xy.2, pz]
    | none =>
        match pdrDelta with
        | some l =>
            if l.isEmpty then kf0   -- an empty tuple is falsy: fall through to the fallback
            else
              -- dx, dy = pdr_delta[:2] if len(pdr_delta) >= 2 else (0.0, 0.0)
              let d := if 2 ≤ l.length then (l.getD 0 0, l.getD 1 0) else ((0 : ℝ), (0 : ℝ))
              kf0.predict ![d.1, d.2, 0]    -- _kf.predict((dx, dy, 0.0)), floor stable
        | none => kf0                       -- fallback: state read, filter untouched
  let st := kf1.get_state
  let lonlat := local_to_ll gs.origin st.1 st.2.1
  ({ origin := gs.origin, kf := some kf1 }, (lonlat.1, lonlat.2, st.2.2))

end

/-- Roundtrip law (claim C1): converting a coordinate to local meters with ll_to_local
and back with local_to_ll returns it exactly, for every origin whose latitude-cosine
factor is non-zero (the factor is never exactly zero in the floating-point source). -/
theorem ll_local_roundtrip (o : Origin) (lon lat : ℝ)
    (h : Real.cos (radians o.lat) ≠ 0) :
    local_to_ll o (ll_to_local o lon lat).1 (ll_to_local o lon lat).2 = (lon, lat) := by
  have hR : (earthRadius : ℝ) ≠ 0 := by norm_num [earthRadius]
  simp only [local_to_ll, ll_to_local, Prod.mk.injEq]
  constructor
  · field_simp
    ring
  · field_simp

/-- Witness for C1 at the concrete origin (0, 0) and point (3, 4). -/
theorem ll_local_roundtrip_witness :
    local_to_ll ⟨0, 0⟩ (ll_to_local ⟨0, 0⟩ 3 4).1 (ll_to_local ⟨0, 0⟩ 3 4).2 = (3, 4) :=
  ll_local_roundtrip ⟨0, 0⟩ 3 4 (by simp [radians])

/-- Frame condition on the floor (claim C2): the predict call leaves the floor component
of the filter state unchanged — both at the filter level for the delta shape (dx, dy, 0)
that fuse passes (fusion.py line 76), and through the whole PDR branch of fuse. -/
theorem predict_preserves_floor :
    (∀ (kf : KalmanFilter) (dx dy : ℝ), (kf.predict ![dx, dy, 0]).x 2 = kf.x 2) ∧
    (∀ (o : Origin) (k : KalmanFilter) (pdr : Option (List ℝ)) (rm : ℝ),
      ∃ k', (fuse ⟨o, some k⟩ pdr none rm).1.kf = some k' ∧ k'.x 2 = k.x 2) := by
  constructor
  · intro kf dx dy
    simp [KalmanFilter.predict, Matrix.vecHead, Matrix.vecTail]
  · intro o k pdr rm
    match pdr with
    | none => exact ⟨k, rfl, rfl⟩
    | some l =>
      by_cases he : l.isEmpty
      · exact ⟨k, by simp [fuse, he], rfl⟩
      · by_cases hlen : 2 ≤ l.length
        · exact ⟨k.predict ![l.getD 0 0, l.getD 1 0, 0], by simp [fuse, he, hlen],
            by simp [KalmanFilter.predict, Matrix.vecHead, Matrix.vecTail]⟩
        · exact ⟨k.predict ![0, 0, 0], by simp [fuse, he, hlen],
            by simp [KalmanFilter.predict, Matrix.vecHead, Matrix.vecTail]⟩

/-- Reset law (claim C8): reset_state to (x0, y0, f0) followed by get_state returns
exactly (x0, y0, f0), and the covariance is the identity. -/
theorem reset_get_state (kf : KalmanFilter) (x0 y0 f0 : ℝ) :
    (kf.reset_state ![x0, y0, f0]).get_state = (x0, y0, f0) ∧
    (kf.reset_state ![x0, y0, f0]).P = 1 := by
  constructor
  · simp [KalmanFilter.reset_state, KalmanFilter.get_state]
  · rfl

/-- Origin change behaviour (claim C9): set_origin_gps overwrites the origin globals; when
the singleton filter exists it is reset to state (0, 0, 0) with identity covariance in the
same call; when no filter exists yet only the origin changes. -/
theorem set_origin_gps_spec (gs : FusionState) (lon lat : ℝ) :
    (set_origin_gps gs lon lat).origin = ⟨lon, lat⟩ ∧
    (∀ k, gs.kf = some k →
      ∃ k', (set_origin_gps gs lon lat).kf = some k' ∧
        k'.x = ![0, 0, 0] ∧ k'.P = 1) ∧
    (gs.kf = none → (set_origin_gps gs lon lat).kf = none) := by
  refine ⟨rfl, ?_, ?_⟩
  · intro k hk
    exact ⟨k.reset_state ![0, 0, 0], by simp [set_origin_gps, hk], rfl, rfl⟩
  · intro hk
    simp [set_origin_gps, hk]

/-- Witness for C9: a concrete state holding a default filter, origin moved to (1, 2). -/
theorem set_origin_gps_spec_witness :
    ∃ k', (set_origin_gps ⟨⟨5, 6⟩, some (KalmanFilter.init none none)⟩ 1 2).kf = some k' ∧
      k'.x = ![0, 0, 0] ∧ k'.P = 1 :=
  (set_origin_gps_spec ⟨⟨5, 6⟩, some (KalmanFilter.init none none)⟩ 1 2).2.1 _ rfl

/-- Fallback frame condition (claim C10): with no QR anchor and no PDR delta, fuse leaves
the whole module state (filter state vector and covariance included) unchanged and returns
the current filter state converted to geodetic coordinates. -/
theorem fuse_fallback_frame (gs : FusionState) (k : KalmanFilter) (rm : ℝ)
    (h : gs.kf = some k) :
    (fuse gs none none rm).1 = gs ∧
    (fuse gs none none rm).2 =
      ((local_to_ll gs.origin (k.x 0) (k.x 1)).1,
       (local_to_ll gs.origin (k.x 0) (k.x 1)).2, k.x 2) := by
  obtain ⟨o, kfo⟩ := gs
  cases h
  exact ⟨rfl, rfl⟩

/-- Witness for C10 at a concrete state holding a default filter. -/
theorem fuse_fallback_frame_witness :
    (fuse ⟨⟨7, 8⟩, some (KalmanFilter.init none none)⟩ none none 0).1 =
      ⟨⟨7, 8⟩, some (KalmanFilter.init none none)⟩ ∧
    (fuse ⟨⟨7, 8⟩, some (KalmanFilter.init none none)⟩ none none 0).2 =
      ((local_to_ll ⟨7, 8⟩ ((KalmanFilter.init none none).x 0)
          ((KalmanFilter.init none none).x 1)).1,
       (local_to_ll ⟨7, 8⟩ ((KalmanFilter.init none none).x 0)
          ((KalmanFilter.init none none).x 1)).2,
       (KalmanFilter.init none none).x 2) :=
  fuse_fallback_frame ⟨⟨7, 8⟩, some (KalmanFilter.init none none)⟩ (KalmanFilter.init none none) 0 rfl

/-- Modelled from the spec (section 4.4 PositionIntegrator): the displacement contributed
by one step with stride and heading — (stride·cos(heading), stride·sin(heading)). -/
noncomputable def stepContribution (sh : ℝ × ℝ) : ℝ × ℝ :=
  (sh.1 * Real.cos sh.2, sh.1 * Real.sin sh.2)

/-- Modelled from the spec (section 4.4): the per-batch position trajectory,
pos_0 = p and pos_k = pos_(k-1) + contribution of step k. -/
noncomputable def pdrPositions (p : ℝ × ℝ) : List (ℝ × ℝ) → List (ℝ × ℝ)
  | [] => [p]
  | sh :: rest => p :: pdrPositions (p + stepContribution sh) rest

/-- Modelled from the spec: pdr_delta (PositionIntegrator, spec section 4.4) is imported
by src/services/geolocate.py line 10 from algorithms.PDR, but no definition of it exists
under src. The spec: it "returns pos_last − pos_second_to_last", "returning (0,0) when
fewer than two steps are available in the batch". -/
noncomputable def pdr_delta (steps : List (ℝ × ℝ)) : ℝ × ℝ :=
  if steps.length < 2 then (0, 0)
  else
    let ps := pdrPositions (0, 0) steps
    ps.getD (ps.length - 1) (0, 0) - ps.getD (ps.length - 2) (0, 0)

theorem pdrPositions_length (p : ℝ × ℝ) (l : List (ℝ × ℝ)) :
    (pdrPositions p l).length = l.length + 1 := by
  induction l generalizing p with
  | nil => rfl
  | cons sh rest ih => simp [pdrPositions, ih]

theorem pdrPositions_last_step (p : ℝ × ℝ) (l : List (ℝ × ℝ)) (h : l ≠ []) :
    (pdrPositions p l).getD l.length (0, 0) -
      (pdrPositions p l).getD (l.length - 1) (0, 0) =
    stepContribution (l.getLast h) := by
  induction l generalizing p with
  | nil => exact absurd rfl h
  | cons sh rest ih =>
    cases rest with
    | nil => simp [pdrPositions]
    | cons sh2 rest2 =>
      have hne : sh2 :: rest2 ≠ [] := by simp
      have := ih (p := p + stepContribution sh) hne
      simpa [pdrPositions, List.getLast_cons, List.length_cons] using this

/-- Neutral result and last-step law (claim C3): with fewer than two detected steps
pdr_delta is exactly (0, 0); with at least two steps it is pos_last − pos_second_to_last,
which equals the displacement contributed by the most recent step alone. -/
theorem pdr_delta_spec (steps : List (ℝ × ℝ)) :
    (steps.length < 2 → pdr_delta steps = (0, 0)) ∧
    (∀ h : steps ≠ [], 2 ≤ steps.length →
      pdr_delta steps = stepContribution (steps.getLast h)) := by
  constructor
  · intro h
    simp [pdr_delta, h]
  · intro h h2
    rw [pdr_delta, if_neg (by omega)]
    simpa [pdrPositions_length] using pdrPositions_last_step (0, 0) steps h

/-- Witness for C3 at a concrete two-step batch. -/
theorem pdr_delta_spec_witness :
    pdr_delta [(1, 0), (2, 0)] =
      stepContribution (([((1 : ℝ), (0 : ℝ)), (2, 0)]).getLast (by simp)) :=
  (pdr_delta_spec [(1, 0), (2, 0)]).2 (by simp) (by simp)

/-- Write 1.0 into the mask positions of the half-open index range [ii, stop); positions
outside the range keep their value. Embeds a numpy slice assignment target. -/
def markWindow (mask : List ℝ) (ii stop : ℕ) : List ℝ :=
  mask.mapIdx fun j v => if ii ≤ j ∧ j < stop then 1 else v

/-- The stance-mask marking stage of step_detection_accelerometer in src/algorithms/PDR.py
lines 70-73: StancePhase = np.zeros(num_samples); for ii in StanceBegins_idx:
StancePhase[ii:ii + 10] = np.ones(10). In numpy the slice is clipped to the array, but
assigning the fixed 10-element np.ones(10) to it broadcasts only when the clipped slice
still has length 10, i.e. when ii + 10 <= n; otherwise the assignment raises ValueError,
embedded here as none. -/
def stancePhase_PDR (idxs : List ℕ) (n : ℕ) : Option (List ℝ) :=
  idxs.foldlM
    (fun mask ii => if ii + 10 ≤ n then some (markWindow mask ii (ii + 10)) else none)
    (List.replicate n 0)

/-- The stance-mask marking stage of step_detection_accelerometer in
src/legacy_tools/Kalmanfilter.py lines 193-196: end_idx = min(ii + 10, num_samples);
StancePhase[ii:end_idx] = 1 (a scalar assignment, which broadcasts to any slice length). -/
def stancePhase_legacy (idxs : List ℕ) (n : ℕ) : List ℝ :=
  idxs.foldl (fun mask ii => markWindow mask ii (min (ii + 10) n)) (List.replicate n 0)

/-- Stance-window clipping at the batch end (claim C4): at a step event fired at index 5
of a 12-sample batch, the marking loop of src/algorithms/PDR.py raises (the clipped slice
StancePhase[5:15] has length 7, and np.ones(10) cannot broadcast into it), while the
clipped legacy marking completes and marks exactly the samples 5..11 — the behaviour the
claim describes. -/
theorem stance_mask_eval :
    stancePhase_PDR [5] 12 = none ∧
    stancePhase_legacy [5] 12 = List.replicate 5 0 ++ List.replicate 7 1 := by
  constructor
  · rfl
  · simp [stancePhase_legacy, markWindow, List.replicate, List.mapIdx]
    norm_num [List.mapIdx.go]

/-- np.max over a numpy array, as a fold of max over the list (the junk value for the
empty array, which numpy rejects, is the 0 default of headD). -/
noncomputable def npMax (l : List ℝ) : ℝ := l.foldl max (l.headD 0)

/-- np.min over a numpy array, dually. -/
noncomputable def npMin (l : List ℝ) : ℝ := l.foldl min (l.headD 0)

/-- The Weinberg window of src/legacy_tools/Kalmanfilter.py lines 258-259:
m_acc[max(0, s - 20) : min(len(m_acc), s + 20)] (Nat subtraction is the max(0, ·) clip). -/
def weinbergWindow (m_acc : List ℝ) (s : ℕ) : List ℝ :=
  (m_acc.drop (s - 20)).take (min m_acc.length (s + 20) - (s - 20))

/-- Stride length of one step in src/legacy_tools/Kalmanfilter.py lines 254-270, with its
constant K = 0.4: bounce = (acc_max - acc_min)**(1/4) over the clipped +-20 window,
stride = max(K * bounce, 0.3); 0.7 when the window is degenerate (acc_max <= acc_min) or
the step index falls outside the filtered magnitude array. -/
noncomputable def stride_legacy (m_acc : List ℝ) (s : ℕ) : ℝ :=
  if s < m_acc.length then
    let wmax := npMax (weinbergWindow m_acc s)
    let wmin := npMin (weinbergWindow m_acc s)
    if wmin < wmax then max (0.4 * (wmax - wmin) ^ ((1 : ℝ) / 4)) 0.3
    else 0.7
  else 0.7

/-- Stride length of one step in src/algorithms/PDR.py lines 123-129, with its constant
K = 0.2: acc_max and acc_min range over the whole prefix m_acc[:s] before the step, and
stride = bounce * K * 2, with no degenerate-window fallback. -/
noncomputable def stride_active (m_acc : List ℝ) (s : ℕ) : ℝ :=
  (npMax (m_acc.take s) - npMin (m_acc.take s)) ^ ((1 : ℝ) / 4) * 0.2 * 2

/-- Counterexample for claim C5: on the two-sample filtered magnitude [10, 10 + 1/16]
with a step at index 1, the window is the whole array, acc_max - acc_min = 1/16, the
claimed formula K * (max - min)^(1/4) gives 0.4 * (1/16)^(1/4) = 0.2, but the code
returns 0.3: the source clamps every stride from below at 0.3 m, which the claim omits.
The src/algorithms/PDR.py variant diverges further: at a degenerate window it returns 0
instead of the claimed default of about 0.7 m. -/
theorem stride_claim_counterexample :
    stride_legacy [10, 10 + 1 / 16] 1 = 0.3 ∧
    (0.4 : ℝ) * ((npMax (weinbergWindow [10, 10 + 1 / 16] 1) -
        npMin (weinbergWindow [10, 10 + 1 / 16] 1)) ^ ((1 : ℝ) / 4)) = 0.2 ∧
    (0.3 : ℝ) ≠ 0.2 ∧
    stride_active [0, 16] 1 = 0 := by
  have hw : weinbergWindow [(10 : ℝ), 10 + 1 / 16] 1 = [(10 : ℝ), 10 + 1 / 16] := by
    norm_num [weinbergWindow]
  have hmax : npMax [(10 : ℝ), 10 + 1 / 16] = 10 + 1 / 16 := by
    simp only [npMax, List.headD, List.foldl_cons, List.foldl_nil, max_self]
    rw [max_eq_right (by norm_num)]
  have hmin : npMin [(10 : ℝ), 10 + 1 / 16] = 10 := by
    simp only [npMin, List.headD, List.foldl_cons, List.foldl_nil, min_self]
    rw [min_eq_left (by norm_num)]
  have hrpow : ((1 : ℝ) / 16) ^ ((1 : ℝ) / 4) = 1 / 2 := by
    have h : (1 / 16 : ℝ) = (1 / 2) ^ (4 : ℕ) := by norm_num
    rw [h, ← Real.rpow_natCast (1 / 2 : ℝ) 4, ← Real.rpow_mul (by norm_num)]
    norm_num
  have hdiff : (10 : ℝ) + 1 / 16 - 10 = 1 / 16 := by ring
  refine ⟨?_, ?_, by norm_num, ?_⟩
  · rw [stride_legacy, if_pos (by norm_num), hw, hmax, hmin,
      if_pos (by norm_num), hdiff, hrpow]
    rw [max_eq_right (by norm_num)]
  · rw [hw, hmax, hmin, hdiff, hrpow]
    norm_num
  · have ht : ([(0 : ℝ), 16]).take 1 = [(0 : ℝ)] := by norm_num
    rw [stride_active, ht]
    have h0 : npMax [(0 : ℝ)] = 0 := by simp [npMax]
    have h1 : npMin [(0 : ℝ)] = 0 := by simp [npMin]
    rw [h0, h1, sub_zero, Real.zero_rpow (by norm_num)]
    ring

theorem foldl_max_mem (l : List ℝ) (a : ℝ) : l.foldl max a = a ∨ l.foldl max a ∈ l := by
  induction l generalizing a with
  | nil => exact Or.inl rfl
  | cons b t ih =>
    rcases ih (max a b) with h | h
    · rcases max_choice a b with hm | hm
      · exact Or.inl (by rw [List.foldl_cons, h, hm])
      · exact Or.inr (by rw [List.foldl_cons, h, hm]; exact List.mem_cons_self _ _)
    · exact Or.inr (List.mem_cons_of_mem _ h)

theorem le_foldl_max (l : List ℝ) (a : ℝ) :
    a ≤ l.foldl max a ∧ ∀ v ∈ l, v ≤ l.foldl max a := by
  induction l generalizing a with
  | nil => exact ⟨le_refl a, by simp⟩
  | cons b t ih =>
    obtain ⟨h1, h2⟩ := ih (max a b)
    refine ⟨le_trans (le_max_left a b) h1, ?_⟩
    intro v hv
    rcases List.mem_cons.mp hv with rfl | hv
    · exact le_trans (le_max_right a v) h1
    · exact h2 v hv

theorem foldl_min_mem (l : List ℝ) (a : ℝ) : l.foldl min a = a ∨ l.foldl min a ∈ l := by
  induction l generalizing a with
  | nil => exact Or.inl rfl
  | cons b t ih =>
    rcases ih (min a b) with h | h
    · rcases min_choice a b with hm | hm
      · exact Or.inl (by rw [List.foldl_cons, h, hm])
      · exact Or.inr (by rw [List.foldl_cons, h, hm]; exact List.mem_cons_self _ _)
    · exact Or.inr (List.mem_cons_of_mem _ h)

theorem foldl_min_le (l : List ℝ) (a : ℝ) :
    l.foldl min a ≤ a ∧ ∀ v ∈ l, l.foldl min a ≤ v := by
  induction l generalizing a with
  | nil => exact ⟨le_refl a, by simp⟩
  | cons b t ih =>
    obtain ⟨h1, h2⟩ := ih (min a b)
    refine ⟨le_trans h1 (min_le_left a b), ?_⟩
    intro v hv
    rcases List.mem_cons.mp hv with rfl | hv
    · exact le_trans h1 (min_le_right a v)
    · exact h2 v hv

theorem npMax_mem (l : List ℝ) (h : l ≠ []) : npMax l ∈ l := by
  rcases foldl_max_mem l (l.headD 0) with hm | hm
  · rw [npMax, hm]
    cases l with
    | nil => exact absurd rfl h
    | cons b t => exact List.mem_cons_self _ _
  · exact hm

theorem npMin_mem (l : List ℝ) (h : l ≠ []) : npMin l ∈ l := by
  rcases foldl_min_mem l (l.headD 0) with hm | hm
  · rw [npMin, hm]
    cases l with
    | nil => exact absurd rfl h
    | cons b t => exact List.mem_cons_self _ _
  · exact hm

theorem weinbergWindow_ne_nil (m_acc : List ℝ) (s : ℕ) (h : s < m_acc.length) :
    weinbergWindow m_acc s ≠ [] := by
  have hl : (weinbergWindow m_acc s).length ≠ 0 := by
    simp only [weinbergWindow, List.length_take, List.length_drop]
    omega
  intro hn
  exact hl (by rw [hn]; rfl)

/-- Amended claim C5: over the clipped +-20-sample window of the legacy estimator, the
stride is the claimed K * (max - min)^(1/4) clamped from below at 0.3 m (the clamp is what
the claim misses), the degenerate window falls back to 0.7 m as claimed, and the values
max and min really are the extrema of the clipped window. -/
theorem stride_legacy_amended (m_acc : List ℝ) (s : ℕ) (h : s < m_acc.length) :
    (npMin (weinbergWindow m_acc s) < npMax (weinbergWindow m_acc s) →
      stride_legacy m_acc s =
        max (0.4 * (npMax (weinbergWindow m_acc s) -
          npMin (weinbergWindow m_acc s)) ^ ((1 : ℝ) / 4)) 0.3) ∧
    (npMax (weinbergWindow m_acc s) ≤ npMin (weinbergWindow m_acc s) →
      stride_legacy m_acc s = 0.7) ∧
    npMax (weinbergWindow m_acc s) ∈ weinbergWindow m_acc s ∧
    npMin (weinbergWindow m_acc s) ∈ weinbergWindow m_acc s ∧
    (∀ v ∈ weinbergWindow m_acc s,
      npMin (weinbergWindow m_acc s) ≤ v ∧ v ≤ npMax (weinbergWindow m_acc s)) := by
  have hne := weinbergWindow_ne_nil m_acc s h
  refine ⟨?_, ?_, npMax_mem _ hne, npMin_mem _ hne, ?_⟩
  · intro hlt
    rw [stride_legacy, if_pos h, if_pos hlt]
  · intro hle
    rw [stride_legacy, if_pos h, if_neg (not_lt.mpr hle)]
  · intro v hv
    exact ⟨(foldl_min_le _ _).2 v hv, (le_foldl_max _ _).2 v hv⟩

/-- Witness for the amended claim C5 at the concrete window [0, 16]. -/
theorem stride_legacy_amended_witness :
    stride_legacy [0, 16] 1 =
      max (0.4 * (npMax (weinbergWindow [0, 16] 1) -
        npMin (weinbergWindow [0, 16] 1)) ^ ((1 : ℝ) / 4)) 0.3 :=
  (stride_legacy_amended [0, 16] 1 (by simp)).1 (by
    have hw : weinbergWindow [(0 : ℝ), 16] 1 = [(0 : ℝ), 16] := by
      norm_num [weinbergWindow]
    rw [hw]
    simp only [npMin, npMax, List.headD, List.foldl_cons, List.foldl_nil,
      min_self, max_self]
    rw [min_eq_left (by norm_num), max_eq_right (by norm_num)]
    norm_num)

/-- The skew-symmetric angular-rate matrix of one gyroscope sample, as built in both
weiberg_stride_length_heading_position versions. -/
noncomputable def skewMatrix (w : Fin 3 → ℝ) : Matrix (Fin 3) (Fin 3) ℝ :=
  !![0, -(w 2), w 1; w 2, 0, -(w 0); -(w 1), w 0, 0]

/-- One propagation step: rot_gs[:, :, i] = rot_gs[:, :, i-1] @ expm(skew / freq_gyr). -/
noncomputable def rotStep (prev : Matrix (Fin 3) (Fin 3) ℝ) (w : Fin 3 → ℝ) (fGyr : ℝ) :
    Matrix (Fin 3) (Fin 3) ℝ :=
  prev * NormedSpace.exp ℝ (fGyr⁻¹ • skewMatrix w)

/-- Bounds-checked write into a numpy array slot: writing past the end raises, embedded
as none. -/
def setIdx {α : Type} (l : List α) (i : ℕ) (v : α) : Option (List α) :=
  if i < l.length then some (l.set i v) else none

/-- The rotation-propagation loop of src/algorithms/PDR.py lines 150-155: rot_gs has
num_samples_acc slots, but the loop runs for i in range(1, num_samples_gyr), so a
gyroscope batch longer than the accelerometer batch indexes past the end of rot_gs
(an IndexError, embedded as none). The pre-loop write rot_gs[:, :, 0] is kept as a
plain set (the sources assume at least one accelerometer sample). -/
noncomputable def propagateRot_PDR (rot0 : Matrix (Fin 3) (Fin 3) ℝ)
    (gyr : List (Fin 3 → ℝ)) (nAcc : ℕ) (fGyr : ℝ) :
    Option (List (Matrix (Fin 3) (Fin 3) ℝ)) :=
  (List.range' 1 (gyr.length - 1)).foldlM
    (fun rots i =>
      setIdx rots i (rotStep (rots.getD (i - 1) 0) (gyr.getD i (fun _ => 0)) fGyr))
    ((List.replicate nAcc 0).set 0 rot0)

/-- The rotation-propagation loop of src/legacy_tools/Kalmanfilter.py lines 297-304: the
loop bound is min(num_samples_gyr, num_samples_acc) — mismatched batches are truncated to
the shorter length — and each write is guarded by freq_gyr > 0. -/
noncomputable def propagateRot_legacy (rot0 : Matrix (Fin 3) (Fin 3) ℝ)
    (gyr : List (Fin 3 → ℝ)) (nAcc : ℕ) (fGyr : ℝ) :
    List (Matrix (Fin 3) (Fin 3) ℝ) :=
  (List.range' 1 (min gyr.length nAcc - 1)).foldl
    (fun rots i =>
      if 0 < fGyr then
        rots.set i (rotStep (rots.getD (i - 1) 0) (gyr.getD i (fun _ => 0)) fGyr)
      else rots)
    ((List.replicate nAcc 0).set 0 rot0)

theorem propagateRot_legacy_untouched (rot0 : Matrix (Fin 3) (Fin 3) ℝ)
    (gyr : List (Fin 3 → ℝ)) (nAcc : ℕ) (fGyr : ℝ) (j : ℕ)
    (hj : min gyr.length nAcc ≤ j) (h1 : 1 ≤ j) :
    (propagateRot_legacy rot0 gyr nAcc fGyr).getD j 0 = 0 := by
  rw [propagateRot_legacy]
  have hinit :
      (((List.replicate nAcc (0 : Matrix (Fin 3) (Fin 3) ℝ)).set 0 rot0)).getD j 0 = 0 := by
    rw [List.getD_eq_getElem?_getD, List.getElem?_set_ne (by omega), List.getElem?_replicate]
    split <;> rfl
  suffices H : ∀ (L : List ℕ) (acc : List (Matrix (Fin 3) (Fin 3) ℝ)),
      (∀ i ∈ L, i ≠ j) → acc.getD j 0 = 0 →
      (L.foldl (fun rots i =>
        if 0 < fGyr then
          rots.set i (rotStep (rots.getD (i - 1) 0) (gyr.getD i (fun _ => 0)) fGyr)
        else rots) acc).getD j 0 = 0 by
    apply H
    · intro i hi
      rw [List.mem_range'_1] at hi
      omega
    · exact hinit
  intro L
  induction L with
  | nil => exact fun acc _ h0 => h0
  | cons i t ih =>
    intro acc hmem h0
    rw [List.foldl_cons]
    apply ih _ (fun i' hi' => hmem i' (List.mem_cons_of_mem _ hi'))
    by_cases hf : 0 < fGyr
    · rw [if_pos hf, List.getD_eq_getElem?_getD,
        List.getElem?_set_ne (hmem i (List.mem_cons_self _ _)),
        ← List.getD_eq_getElem?_getD]
      exact h0
    · rw [if_neg hf]
      exact h0

/-- Rotation-propagation loop bound (claim C6): with 3 gyroscope samples against 2
accelerometer slots, the loop of src/algorithms/PDR.py writes rot_gs[:, :, 2] past the
end of the array and raises rather than truncating; the legacy loop truncates to the
shorter length min(3, nAcc) and leaves every slot at and beyond the truncated range
unwritten (still the zero initialization), completing normally as the claim describes. -/
theorem rot_propagation_eval :
    propagateRot_PDR 1 [fun _ => 0, fun _ => 0, fun _ => 0] 2 1 = none ∧
    (propagateRot_legacy 1 [fun _ => 0, fun _ => 0, fun _ => 0] 5 1).getD 3 0 = 0 ∧
    (propagateRot_legacy 1 [fun _ => 0, fun _ => 0, fun _ => 0] 5 1).getD 4 0 = 0 ∧
    (propagateRot_legacy 1 [fun _ => 0, fun _ => 0, fun _ => 0] 5 1).length = 5 := by
  refine ⟨?_, ?_, ?_, ?_⟩
  · simp [propagateRot_PDR, setIdx, List.range', List.foldlM]
  · exact propagateRot_legacy_untouched 1 _ 5 1 3 (by simp) (by omega)
  · exact propagateRot_legacy_untouched 1 _ 5 1 4 (by simp) (by omega)
  · simp [propagateRot_legacy, List.range', List.foldl]

/-- One mutating call on the filter: the three operations of filters.py. -/
inductive KFOp
  | predict (d : Fin 3 → ℝ)
  | update (z : Fin 3 → ℝ)
  | reset (p : Fin 3 → ℝ)

/-- Apply one operation to the filter. -/
noncomputable def KFOp.apply (kf : KalmanFilter) : KFOp → KalmanFilter
  | predict d => kf.predict d
  | update z => kf.update z
  | reset p => kf.reset_state p

/-- Run a finite call sequence on the filter. -/
noncomputable def runOps (kf : KalmanFilter) (ops : List KFOp) : KalmanFilter :=
  ops.foldl KFOp.apply kf

/-- Invariant carried through every operation of the default-noise filter: the noise
parameters are the __init__ defaults and the covariance is a positive multiple of the
identity. -/
def KFInv (kf : KalmanFilter) : Prop :=
  (kf.Q = (0.1 : ℝ) • 1 ∧ kf.R = (2 : ℝ) • 1 ∧ kf.H = 1) ∧
  ∃ c : ℝ, 0 < c ∧ kf.P = c • 1

theorem smul_one_matrix_inv (c : ℝ) (hc : c ≠ 0) :
    (c • (1 : Matrix (Fin 3) (Fin 3) ℝ))⁻¹ = c⁻¹ • 1 := by
  apply Matrix.inv_eq_right_inv
  rw [Matrix.smul_mul, Matrix.mul_smul, one_mul, smul_smul, mul_inv_cancel₀ hc, one_smul]

theorem smul_one_posSemidef (c : ℝ) (hc : 0 ≤ c) :
    (c • (1 : Matrix (Fin 3) (Fin 3) ℝ)).PosSemidef := by
  constructor
  · unfold Matrix.IsHermitian
    rw [conjTranspose_smul, conjTranspose_one]
    simp
  · intro v
    rw [smul_mulVec_assoc, one_mulVec, dotProduct_smul]
    simp only [smul_eq_mul]
    have hv : (0 : ℝ) ≤ star v ⬝ᵥ v := dotProduct_star_self_nonneg v
    positivity

theorem KFOp_apply_inv (kf : KalmanFilter) (op : KFOp) (h : KFInv kf) :
    KFInv (op.apply kf) := by
  obtain ⟨⟨hQ, hR, hH⟩, c, hc, hP⟩ := h
  cases op with
  | predict d =>
    refine ⟨⟨hQ, hR, hH⟩, c + 0.1, by linarith, ?_⟩
    show kf.P + kf.Q = (c + 0.1) • 1
    rw [hP, hQ, ← add_smul]
  | reset p =>
    exact ⟨⟨hQ, hR, hH⟩, 1, one_pos, (one_smul ℝ (1 : Matrix (Fin 3) (Fin 3) ℝ)).symm⟩
  | update z =>
    have hc2 : (0 : ℝ) < c + 2 := by linarith
    refine ⟨⟨hQ, hR, hH⟩, (1 - c * (c + 2)⁻¹) * c, ?_, ?_⟩
    · have h1 : c * (c + 2)⁻¹ < 1 := by
        rw [← div_eq_mul_inv]
        exact (div_lt_one hc2).mpr (by linarith)
      have h2 : (0 : ℝ) < 1 - c * (c + 2)⁻¹ := by linarith
      exact mul_pos h2 hc
    · show (1 - kf.P * kf.Hᵀ * (kf.H * kf.P * kf.Hᵀ + kf.R)⁻¹ * kf.H) * kf.P =
        ((1 - c * (c + 2)⁻¹) * c) • 1
      rw [hP, hH, hR, Matrix.transpose_one, one_mul, mul_one, mul_one, ← add_smul,
        smul_one_matrix_inv (c + 2) (ne_of_gt hc2), Matrix.smul_mul, Matrix.mul_smul,
        one_mul, smul_smul, mul_one, smul_sub, smul_smul, ← sub_smul]
      congr 1
      ring

theorem runOps_inv (ops : List KFOp) :
    ∀ kf, KFInv kf → KFInv (runOps kf ops) := by
  induction ops with
  | nil => exact fun kf h => h
  | cons op rest ih =>
    intro kf h
    rw [runOps, List.foldl_cons]
    exact ih _ (KFOp_apply_inv kf op h)

/-- Covariance invariant (claim C7): starting from the freshly constructed filter with the
default (non-singular) noise parameters, after every finite sequence of predict, update
and reset_state calls the covariance matrix stays symmetric and positive semi-definite. -/
theorem kalman_covariance_psd (ops : List KFOp) :
    ((runOps (KalmanFilter.init none none) ops).P).IsSymm ∧
    ((runOps (KalmanFilter.init none none) ops).P).PosSemidef := by
  have h0 : KFInv (KalmanFilter.init none none) := by
    refine ⟨⟨rfl, rfl, rfl⟩, 1, one_pos, (one_smul ℝ _).symm⟩
  obtain ⟨-, c, hc, hP⟩ := runOps_inv ops _ h0
  rw [hP]
  constructor
  · unfold Matrix.IsSymm
    rw [transpose_smul, transpose_one]
  · exact smul_one_posSemidef c hc.le
